import Mathlib

/-!
Verification of the gitlab-repo-mirror synchronization core (src/main.go).

The Go program is shallowly embedded below.  External collaborators are
modelled as oracles:

* the glob matcher (Go's filepath.Match, standard library) is a parameter
  of type Glob returning both the matched flag and whether the pattern was
  reported malformed (ErrBadPattern), since the repository code only
  inspects those two facts;
* each external command invocation (git clone / config / remote update /
  repack, touch, rm, and os.Stat) is a fallible step whose result is drawn
  from a per-repository environment Env; the engine's observable behaviour
  is its outcome together with the ordered trace of operations it invoked
  on the repository's local path;
* the objects function (the only filesystem computation implemented in the
  repository itself) is embedded over an explicit directory-tree datatype.
-/

namespace GitlabRepoMirror

/-- Result of one call of the external glob matcher (Go filepath.Match):
`matched` is the boolean match result, `badPattern` records whether the call
returned a non-nil error (ErrBadPattern for a malformed pattern). -/
structure GlobResult where
  matched : Bool
  badPattern : Bool
deriving DecidableEq, Repr

/-- Oracle for the external glob matcher: pattern and name to a result. -/
def Glob : Type := String → String → GlobResult

/-- Source record (Go struct Source): a remote hosting account. -/
structure Source where
  Domain : String
  Username : String
  Token : String
  Exclude : List String
  Include : List String
deriving DecidableEq, Repr

/-- Go func (s *Source) String(): display form of a source. -/
def Source.string (s : Source) : String :=
  if s.Username ≠ "" then s.Username ++ "@" ++ s.Domain else s.Domain

/-- Go func «matches»(s []string, e string) bool: the loop returns true at the
first pattern that is equal to e, or whose glob match succeeds (err == nil)
and «matches»; otherwise false after the loop. -/
def «matches» (g : Glob) (s : List String) (e : String) : Bool :=
  s.any fun v => v == e || (!(g v e).badPattern && (g v e).matched)

/-- Go func skip(source *Source, remote string) bool. -/
def skip (g : Glob) (source : Source) (remote : String) : Bool :=
  if «matches» g source.Exclude remote then
    true
  else if source.Include.length > 0 && !«matches» g source.Include remote then
    true
  else
    false

/-- Repo record (Go struct Repo), restricted to the fields the decision
engine reads: the clone URL and the path used to derive the local path.
The other listing fields (ID, Name, NameWithNamespace, Path, CreatedAt)
are never consulted after listing. -/
structure Repo where
  HTTPURLToRepo : String
  PathWithNamespace : String
deriving DecidableEq, Repr

/-- Stat record (Go struct Stat): per-source counters.  Go keeps the slice
of repos; the report only ever reads its length, kept here as Repos. -/
structure Stat where
  Source : Source
  Repos : Nat
  Skipped : Nat
  Mirrored : Nat
  Updated : Nat
  Failed : Nat
  FailedMirror : Nat
  FailedUpdate : Nat
deriving DecidableEq, Repr

/-- Result of the os.Stat(local) call in main: the code discards the
FileInfo and only distinguishes err == nil (carrying, for the model, the
kind of entry found), os.IsNotExist(err), and any other error. -/
inductive StatRes where
  | ok (isDir : Bool)
  | notExist
  | otherErr
deriving DecidableEq, Repr

/-- Per-repository oracle for the external calls main makes: the os.Stat
outcome and the success of each subprocess.  objectsRes is the result of
the objects(local) walk, of which main binds only largestsize (the count
is discarded: largestsize, _, err := objects(local)).  removeRes is the
result of the rm -rf, which main discards. -/
structure Env where
  statRes : StatRes
  cloneOk : Bool
  disablegcOk : Bool
  touchOk : Bool
  objectsRes : Except Unit Int
  repackOk : Bool
  updateOk : Bool
  removeOk : Bool
deriving Repr

/-- Outcome of processing one repository: which Stat counter main
increments for it.  Exactly one per repository. -/
inductive Outcome where
  | skipped
  | mirrored
  | updated
  | failed
  | failedMirror
  | failedUpdate
deriving DecidableEq, Repr

/-- Operations main can invoke on the repository's local path, in the
order they appear in the trace. -/
inductive Op where
  | clone
  | disablegc
  | touch
  | objects
  | repack
  | update
  | remove
deriving DecidableEq, Repr

/-- Pack-size threshold from main: 95*1024*1024 bytes. -/
def packThreshold : Int := 95 * 1024 * 1024

/-- Per-repository body of main's inner loop (src/main.go lines 74-153):
given the filter oracle, the source, the repo's remote URL and the
environment for its external calls, returns the outcome recorded into the
Stat and the ordered trace of operations invoked on the local path.  The
traces transcribe the Go control flow: on the new-mirror path every
failure is followed by remove(local) (whose own result is discarded), on
the existing-mirror path no removal ever happens. -/
def processRepo (g : Glob) (source : Source) (remote : String) (env : Env) :
    Outcome × List Op :=
  if skip g source remote then
    (.skipped, [])
  else
    match env.statRes with
    | .otherErr => (.failed, [])
    | .notExist =>
      if env.cloneOk = false then
        (.failedMirror, [.clone, .remove])
      else if env.disablegcOk = false then
        (.failedMirror, [.clone, .disablegc, .remove])
      else if env.touchOk = false then
        (.failedMirror, [.clone, .disablegc, .touch, .remove])
      else
        match env.objectsRes with
        | .error _ =>
          (.failedMirror, [.clone, .disablegc, .touch, .objects, .remove])
        | .ok largestsize =>
          if largestsize > packThreshold then
            if env.repackOk = false then
              (.failedMirror,
                [.clone, .disablegc, .touch, .objects, .repack, .remove])
            else if env.updateOk = false then
              (.failedMirror,
                [.clone, .disablegc, .touch, .objects, .repack, .update, .remove])
            else
              (.mirrored,
                [.clone, .disablegc, .touch, .objects, .repack, .update])
          else
            if env.updateOk = false then
              (.failedMirror,
                [.clone, .disablegc, .touch, .objects, .update, .remove])
            else
              (.mirrored, [.clone, .disablegc, .touch, .objects, .update])
    | .ok _ =>
      if env.disablegcOk = false then
        (.failedUpdate, [.disablegc])
      else if env.updateOk = false then
        (.failedUpdate, [.disablegc, .update])
      else
        (.updated, [.disablegc, .update])

/-- Counter increment main performs for an outcome (stat.X++). -/
def record (s : Stat) (o : Outcome) : Stat :=
  match o with
  | .skipped => { s with Skipped := s.Skipped + 1 }
  | .mirrored => { s with Mirrored := s.Mirrored + 1 }
  | .updated => { s with Updated := s.Updated + 1 }
  | .failed => { s with Failed := s.Failed + 1 }
  | .failedMirror => { s with FailedMirror := s.FailedMirror + 1 }
  | .failedUpdate => { s with FailedUpdate := s.FailedUpdate + 1 }

/-- Inner loop of main over the repos of one source, threading the Stat. -/
def processRepos (g : Glob) (source : Source) :
    List (Repo × Env) → Stat → Stat
  | [], s => s
  | (r, env) :: rest, s =>
    processRepos g source rest
      (record s (processRepo g source r.HTTPURLToRepo env).1)

/-- Fresh Stat for a source, as built at the top of main's source loop. -/
def initStat (source : Source) : Stat :=
  { Source := source, Repos := 0, Skipped := 0, Mirrored := 0, Updated := 0,
    Failed := 0, FailedMirror := 0, FailedUpdate := 0 }

/-- Listing result for one source: getRepo either fails as a whole or
yields the repos, each paired with the environment its processing will
consult. -/
def Listing : Type := Except Unit (List (Repo × Env))

/-- Per-source body of main's outer loop: the Stat is appended before the
listing call, so on a listing error it stays at its zero-counter initial
value and its repo slice stays empty; otherwise stat.Repos is set and the
repos are processed in order. -/
def runSource (g : Glob) (source : Source) (listing : Listing) : Stat :=
  match listing with
  | .error _ => initStat source
  | .ok repos =>
    processRepos g source repos { initStat source with Repos := repos.length }

/-- Configured source together with the listing oracle for this run. -/
structure SourceInput where
  source : Source
  listing : Listing

/-- Batch: main's outer loop over config.Sources, producing the stats
slice that the final report iterates in order, one line per entry. -/
def runBatch (g : Glob) (inputs : List SourceInput) : List Stat :=
  inputs.map fun i => runSource g i.source i.listing

/-- Sum of the six outcome counters of a Stat. -/
def Stat.outcomeSum (s : Stat) : Nat :=
  s.Skipped + s.Mirrored + s.Updated + s.Failed + s.FailedMirror +
    s.FailedUpdate

/-- Filesystem tree rooted at the objects subtree that Go's
filepath.WalkDir visits in the objects function.  A file carries its name,
its size (Go int64) and whether its d.Info() call fails; a directory
carries whether reading it fails, in which case WalkDir reports the error
to the callback, which returns it and aborts the walk. -/
inductive FSTree where
  | file (name : String) (size : Int) (infoErr : Bool)
  | dir (name : String) (readErr : Bool) (entries : List FSTree)
deriving Repr

mutual

/-- Walk of one entry, threading the closure state (largestsize, count) of
the Go objects callback: a directory is visited (the callback returns nil
on it) and then its entries are walked unless reading it errors; a file
increments count, and if its name has the .pack suffix its size is fetched
(aborting on an Info error) and largestsize is updated whenever
size >= largestsize. -/
def walkTree : FSTree → Int × Int → Except Unit (Int × Int)
  | .file name size infoErr, (largestsize, count) =>
    let count := count + 1
    if !name.endsWith ".pack" then
      .ok (largestsize, count)
    else if infoErr then
      .error ()
    else if size ≥ largestsize then
      .ok (size, count)
    else
      .ok (largestsize, count)
  | .dir _ readErr entries, acc =>
    if readErr then
      .error ()
    else
      walkTrees entries acc

/-- Walk of a directory's entries in order, aborting at the first error as
filepath.WalkDir does when the callback returns a non-nil error. -/
def walkTrees : List FSTree → Int × Int → Except Unit (Int × Int)
  | [], acc => .ok acc
  | t :: ts, acc =>
    match walkTree t acc with
    | .error e => .error e
    | .ok acc' => walkTrees ts acc'

end

/-- Go func objects(local): walks the objects subtree with initial
largestsize = 0, count = 0 and returns (largestsize, count). -/
def objects (tree : FSTree) : Except Unit (Int × Int) :=
  walkTree tree (0, 0)

mutual

/-- Number of non-directory files in a tree (specification side). -/
def fileCount : FSTree → Nat
  | .file _ _ _ => 1
  | .dir _ _ entries => fileCountList entries

/-- Number of non-directory files in a list of trees. -/
def fileCountList : List FSTree → Nat
  | [] => 0
  | t :: ts => fileCount t + fileCountList ts

end

mutual

/-- Sizes of the files whose name ends in .pack, in walk order
(specification side). -/
def packSizes : FSTree → List Int
  | .file name size _ => if name.endsWith ".pack" then [size] else []
  | .dir _ _ entries => packSizesList entries

/-- Sizes of the .pack files of a list of trees, in walk order. -/
def packSizesList : List FSTree → List Int
  | [] => []
  | t :: ts => packSizes t ++ packSizesList ts

end

mutual

/-- Absence of traversal errors: no unreadable directory anywhere, and no
.pack file whose Info call fails (Info is only called on .pack files).
A walk over an errorFree tree completes (specification side). -/
def errorFree : FSTree → Bool
  | .file name _ infoErr => !(name.endsWith ".pack" && infoErr)
  | .dir _ readErr entries => !readErr && errorFreeList entries

/-- Absence of traversal errors in every tree of a list. -/
def errorFreeList : List FSTree → Bool
  | [] => true
  | t :: ts => errorFree t && errorFreeList ts

end

/-! ### Filter theorems -/

/-- Characterization of the pattern loop: a list matches the URL exactly
when some pattern in it is equal to the URL or glob-matches it without a
pattern error. -/
theorem matches_eq_true_iff (g : Glob) (s : List String) (e : String) :
    «matches» g s e = true ↔
      ∃ v ∈ s, v = e ∨
        ((g v e).badPattern = false ∧ (g v e).matched = true) := by
  simp only [«matches», List.any_eq_true, Bool.or_eq_true, beq_iff_eq,
    Bool.and_eq_true, Bool.not_eq_true']

/-- Characterization of a failed pattern loop: no pattern is equal to the
URL, and every glob call on it either errors or does not match. -/
theorem matches_eq_false_iff (g : Glob) (s : List String) (e : String) :
    «matches» g s e = false ↔
      ∀ v ∈ s, v ≠ e ∧
        ((g v e).badPattern = true ∨ (g v e).matched = false) := by
  rw [← Bool.not_eq_true, matches_eq_true_iff]
  constructor
  · intro h v hv
    push_neg at h
    rcases h v hv with ⟨h1, h2⟩
    refine ⟨h1, ?_⟩
    by_cases hb : (g v e).badPattern
    · exact Or.inl hb
    · right
      by_contra hm
      exact h2 (by simpa using hb) (by simpa using hm)
  · rintro h ⟨v, hv, rfl | ⟨hb, hm⟩⟩
    · exact (h _ hv).1 rfl
    · rcases (h v hv).2 with hb' | hm'
      · simp [hb] at hb'
      · simp [hm] at hm'

/-- C5: skip(source, remote) returns true iff the URL matches some exclude
pattern (exact equality or error-free glob match), or the include list is
non-empty and the URL matches none of its patterns; otherwise it returns
false, and a pattern whose glob match reports an error (a malformed
pattern) only ever contributes through exact equality, i.e. is treated as
non-matching. -/
theorem skip_filter_characterization (g : Glob) (source : Source)
    (remote : String) :
    skip g source remote = true ↔
      ((∃ v ∈ source.Exclude, v = remote ∨
          ((g v remote).badPattern = false ∧ (g v remote).matched = true)) ∨
        (source.Include ≠ [] ∧
          ∀ v ∈ source.Include, v ≠ remote ∧
            ((g v remote).badPattern = true ∨ (g v remote).matched = false))) := by
  rw [← matches_eq_true_iff g source.Exclude remote,
    ← matches_eq_false_iff g source.Include remote]
  unfold skip
  cases hE : «matches» g source.Exclude remote <;>
    cases hI : «matches» g source.Include remote <;>
      simp [hE, hI, List.length_pos]

/-- C9: the pattern loop tests exact string equality before consulting the
glob matcher, so a pattern equal to the URL matches no matter what the
glob oracle answers for it — even a malformed-pattern error; in particular
a repository whose URL is character-for-character equal to an exclude
pattern is skipped. -/
theorem exact_match_precedes_glob (g : Glob) (source : Source)
    (remote v : String) (hmem : v ∈ source.Exclude) (heq : v = remote) :
    «matches» g source.Exclude remote = true ∧
      skip g source remote = true := by
  have hm : «matches» g source.Exclude remote = true := by
    rw [matches_eq_true_iff]
    exact ⟨v, hmem, Or.inl heq⟩
  exact ⟨hm, by simp [skip, hm]⟩

/-- Glob oracle that reports every pattern malformed, as filepath.Match
does on a pattern like an unclosed character class. -/
def badGlob : Glob := fun _ _ => { matched := false, badPattern := true }

/-- Witness for exact_match_precedes_glob: with every glob call failing
with a pattern error, the exclude pattern equal to the URL still matches
and the repository is skipped. -/
theorem exact_match_precedes_glob_witness :
    «matches» badGlob ["[a"] "[a" = true ∧
      skip badGlob
        { Domain := "gitlab.example.com", Username := "", Token := "",
          Exclude := ["[a"], Include := [] } "[a" = true :=
  exact_match_precedes_glob badGlob
    { Domain := "gitlab.example.com", Username := "", Token := "",
      Exclude := ["[a"], Include := [] } "[a" "[a" (by simp) rfl

/-! ### Decision-engine theorems -/

/-- Glob oracle answering no-match and no-error on every call; used to
build concrete runs where the filter does not interfere. -/
def noGlob : Glob := fun _ _ => { matched := false, badPattern := false }

/-- Source with no patterns configured: nothing is skipped. -/
def srcPlain : Source :=
  { Domain := "gitlab.example.com", Username := "", Token := "",
    Exclude := [], Include := [] }

/-- Environment in which every external call succeeds and the mirror is
already present as a directory. -/
def envPresent : Env :=
  { statRes := .ok true, cloneOk := true, disablegcOk := true,
    touchOk := true, objectsRes := .ok 0, repackOk := true,
    updateOk := true, removeOk := true }

/-- C6: when os.Stat fails with an error that is not a not-found error,
the repository is counted into the generic Failed counter (incremented by
exactly one, the other counters unchanged) and no operation at all is
invoked on the local path — the trace is empty, so no filesystem mutation
is attempted. -/
theorem stat_error_counts_failed (g : Glob) (source : Source)
    (remote : String) (env : Env) (hns : skip g source remote = false)
    (herr : env.statRes = .otherErr) :
    (processRepo g source remote env).1 = .failed ∧
      (processRepo g source remote env).2 = [] ∧
      ∀ s, record s (processRepo g source remote env).1 =
        { s with Failed := s.Failed + 1 } := by
  simp [processRepo, hns, herr, record]

/-- Witness for stat_error_counts_failed at a concrete environment. -/
theorem stat_error_counts_failed_witness :
    (processRepo noGlob srcPlain "https://gitlab.example.com/a/b.git"
        { envPresent with statRes := .otherErr }).1 = .failed ∧
      (processRepo noGlob srcPlain "https://gitlab.example.com/a/b.git"
        { envPresent with statRes := .otherErr }).2 = [] ∧
      ∀ s, record s (processRepo noGlob srcPlain
          "https://gitlab.example.com/a/b.git"
          { envPresent with statRes := .otherErr }).1 =
        { s with Failed := s.Failed + 1 } :=
  stat_error_counts_failed noGlob srcPlain
    "https://gitlab.example.com/a/b.git"
    { envPresent with statRes := .otherErr } (by decide) rfl

/-- C10: when os.Stat succeeds, the kind of filesystem entry found is
irrelevant — the code discards the FileInfo — and the engine takes the
existing-mirror path: the first operation invoked is disableAutoGC, clone
is never invoked, and the outcome is updated or failedUpdate.  Absent is
concluded only from a not-found error. -/
theorem present_entry_kind_irrelevant (g : Glob) (source : Source)
    (remote : String) (env : Env) (k : Bool)
    (hns : skip g source remote = false) (hok : env.statRes = .ok k) :
    (∀ k' : Bool,
      processRepo g source remote { env with statRes := .ok k' } =
        processRepo g source remote env) ∧
      (processRepo g source remote env).2.head? = some Op.disablegc ∧
      Op.clone ∉ (processRepo g source remote env).2 ∧
      ((processRepo g source remote env).1 = .updated ∨
        (processRepo g source remote env).1 = .failedUpdate) := by
  cases hd : env.disablegcOk <;> cases hu : env.updateOk <;>
    simp [processRepo, hns, hok, hd, hu]

/-- Witness for present_entry_kind_irrelevant: a regular file at the
mirror path (isDir = false) is processed exactly like a directory. -/
theorem present_entry_kind_irrelevant_witness :
    processRepo noGlob srcPlain "https://gitlab.example.com/a/b.git"
        { envPresent with statRes := .ok false } =
      processRepo noGlob srcPlain "https://gitlab.example.com/a/b.git"
        envPresent ∧
      (processRepo noGlob srcPlain "https://gitlab.example.com/a/b.git"
        envPresent).2.head? = some Op.disablegc ∧
      Op.clone ∉ (processRepo noGlob srcPlain
        "https://gitlab.example.com/a/b.git" envPresent).2 ∧
      ((processRepo noGlob srcPlain "https://gitlab.example.com/a/b.git"
          envPresent).1 = .updated ∨
        (processRepo noGlob srcPlain "https://gitlab.example.com/a/b.git"
          envPresent).1 = .failedUpdate) := by
  obtain ⟨h1, h2, h3, h4⟩ := present_entry_kind_irrelevant noGlob srcPlain
    "https://gitlab.example.com/a/b.git" envPresent true (by decide) rfl
  exact ⟨h1 false, h2, h3, h4⟩

/-- C2: on the existing-mirror path (os.Stat succeeded) the engine runs
only disableAutoGC and then update: the trace is one of those two
prefixes, remove is never invoked (the filesystem state of the mirror is
left as-is on failure), a failure of either step counts FailedUpdate up by
exactly one, and success of both counts Updated up by exactly one. -/
theorem existing_mirror_path_spec (g : Glob) (source : Source)
    (remote : String) (env : Env) (k : Bool)
    (hns : skip g source remote = false) (hok : env.statRes = .ok k) :
    ((processRepo g source remote env).2 = [Op.disablegc] ∨
        (processRepo g source remote env).2 = [Op.disablegc, Op.update]) ∧
      Op.remove ∉ (processRepo g source remote env).2 ∧
      (env.disablegcOk = true → env.updateOk = true →
        (processRepo g source remote env).1 = .updated ∧
          (processRepo g source remote env).2 = [Op.disablegc, Op.update] ∧
          ∀ s, record s (processRepo g source remote env).1 =
            { s with Updated := s.Updated + 1 }) ∧
      (env.disablegcOk = false ∨ env.updateOk = false →
        (processRepo g source remote env).1 = .failedUpdate ∧
          ∀ s, record s (processRepo g source remote env).1 =
            { s with FailedUpdate := s.FailedUpdate + 1 }) := by
  cases hd : env.disablegcOk <;> cases hu : env.updateOk <;>
    simp [processRepo, hns, hok, hd, hu, record]

/-- Witness for existing_mirror_path_spec at a concrete environment in
which disableAutoGC fails: no removal, FailedUpdate incremented. -/
theorem existing_mirror_path_spec_witness :
    ((processRepo noGlob srcPlain "https://gitlab.example.com/a/b.git"
          { envPresent with disablegcOk := false }).2 = [Op.disablegc] ∨
        (processRepo noGlob srcPlain "https://gitlab.example.com/a/b.git"
          { envPresent with disablegcOk := false }).2 =
          [Op.disablegc, Op.update]) ∧
      Op.remove ∉ (processRepo noGlob srcPlain
        "https://gitlab.example.com/a/b.git"
        { envPresent with disablegcOk := false }).2 ∧
      (processRepo noGlob srcPlain "https://gitlab.example.com/a/b.git"
        { envPresent with disablegcOk := false }).1 = .failedUpdate ∧
      ∀ s, record s (processRepo noGlob srcPlain
          "https://gitlab.example.com/a/b.git"
          { envPresent with disablegcOk := false }).1 =
        { s with FailedUpdate := s.FailedUpdate + 1 } := by
  obtain ⟨h1, h2, -, h4⟩ := existing_mirror_path_spec noGlob srcPlain
    "https://gitlab.example.com/a/b.git"
    { envPresent with disablegcOk := false } true (by decide) rfl
  obtain ⟨h5, h6⟩ := h4 (Or.inl rfl)
  exact ⟨h1, h2, h5, h6⟩

/-- Success of every step of the new-mirror sequence in an environment:
clone, disableAutoGC, mark and the objects walk succeed, repack succeeds
whenever the measured largest pack exceeds the threshold, and update
succeeds. -/
def newMirrorOk (env : Env) : Bool :=
  env.cloneOk && env.disablegcOk && env.touchOk &&
    match env.objectsRes with
    | .error _ => false
    | .ok largestsize =>
      (if largestsize > packThreshold then env.repackOk else true) &&
        env.updateOk

/-- C1: on the new-mirror path (os.Stat not-found) the operations run in
the order clone, disableAutoGC, mark (touch), pack-size inspection
(objects), conditional repack, update — the trace is a subsequence of
that order with remove allowed only at the end, and it starts with clone;
if every step succeeds the outcome is mirrored (Mirrored incremented by
exactly one) and remove is not invoked; if any step fails the outcome is
failedMirror (FailedMirror incremented by exactly one) and the last
operation invoked is remove, rolling back the partial mirror. -/
theorem new_mirror_path_spec (g : Glob) (source : Source)
    (remote : String) (env : Env)
    (hns : skip g source remote = false)
    (habs : env.statRes = .notExist) :
    (processRepo g source remote env).2.Sublist
        [Op.clone, Op.disablegc, Op.touch, Op.objects, Op.repack,
          Op.update, Op.remove] ∧
      (processRepo g source remote env).2.head? = some Op.clone ∧
      (newMirrorOk env = true →
        (processRepo g source remote env).1 = .mirrored ∧
          Op.remove ∉ (processRepo g source remote env).2 ∧
          ∀ s, record s (processRepo g source remote env).1 =
            { s with Mirrored := s.Mirrored + 1 }) ∧
      (newMirrorOk env = false →
        (processRepo g source remote env).1 = .failedMirror ∧
          (processRepo g source remote env).2.getLast? = some Op.remove ∧
          ∀ s, record s (processRepo g source remote env).1 =
            { s with FailedMirror := s.FailedMirror + 1 }) := by
  rcases env with ⟨st, c, d, t, o, r, u, rm⟩
  obtain rfl : st = StatRes.notExist := habs
  cases c <;> cases d <;> cases t <;> rcases o with e | l <;>
    cases r <;> cases u <;>
    simp only [processRepo, newMirrorOk, hns, Bool.false_eq_true, if_false,
      Bool.true_and, Bool.and_true, Bool.false_and, Bool.and_false]
  all_goals try split_ifs
  all_goals simp_all [record]

/-- Environment for a new mirror whose update step fails after clone,
disableAutoGC, mark and the pack inspection all succeeded. -/
def envNewFailUpdate : Env :=
  { statRes := .notExist, cloneOk := true, disablegcOk := true,
    touchOk := true, objectsRes := .ok 0, repackOk := true,
    updateOk := false, removeOk := true }

/-- Witness for new_mirror_path_spec at a concrete environment in which
the update step of the new-mirror sequence fails. -/
theorem new_mirror_path_spec_witness :
    (processRepo noGlob srcPlain "https://gitlab.example.com/a/b.git"
        envNewFailUpdate).2.Sublist
        [Op.clone, Op.disablegc, Op.touch, Op.objects, Op.repack,
          Op.update, Op.remove] ∧
      (processRepo noGlob srcPlain "https://gitlab.example.com/a/b.git"
        envNewFailUpdate).2.head? = some Op.clone ∧
      (processRepo noGlob srcPlain "https://gitlab.example.com/a/b.git"
        envNewFailUpdate).1 = .failedMirror ∧
      (processRepo noGlob srcPlain "https://gitlab.example.com/a/b.git"
        envNewFailUpdate).2.getLast? = some Op.remove ∧
      ∀ s, record s (processRepo noGlob srcPlain
          "https://gitlab.example.com/a/b.git" envNewFailUpdate).1 =
        { s with FailedMirror := s.FailedMirror + 1 } := by
  obtain ⟨h1, h2, -, h4⟩ := new_mirror_path_spec noGlob srcPlain
    "https://gitlab.example.com/a/b.git" envNewFailUpdate (by decide) rfl
  obtain ⟨h5, h6, h7⟩ := h4 (by decide)
  exact ⟨h1, h2, h5, h6, h7⟩

/-- C4: in the new-mirror sequence, once clone, disableAutoGC and mark
have succeeded and the pack inspection returned largestsize, repack is
invoked iff largestsize strictly exceeds 95*1024*1024 bytes (so exactly
95 MiB does not trigger it and 95 MiB + 1 byte does), and whenever both
repack and update are invoked, repack comes first; moreover on the
existing-mirror path (os.Stat succeeded) neither the pack inspection nor
repack is ever invoked. -/
theorem repack_threshold_spec (g : Glob) (source : Source)
    (remote : String) (env : Env) (largestsize : Int)
    (hns : skip g source remote = false)
    (habs : env.statRes = .notExist)
    (hc : env.cloneOk = true) (hd : env.disablegcOk = true)
    (ht : env.touchOk = true) (ho : env.objectsRes = .ok largestsize) :
    (Op.repack ∈ (processRepo g source remote env).2 ↔
        largestsize > 95 * 1024 * 1024) ∧
      (Op.repack ∈ (processRepo g source remote env).2 →
        Op.update ∈ (processRepo g source remote env).2 →
        (processRepo g source remote env).2.indexOf Op.repack <
          (processRepo g source remote env).2.indexOf Op.update) ∧
      ∀ env' : Env, ∀ k : Bool, env'.statRes = .ok k →
        Op.objects ∉ (processRepo g source remote env').2 ∧
        Op.repack ∉ (processRepo g source remote env').2 := by
  refine ⟨?_, ?_, ?_⟩
  · rcases env with ⟨st, c, d, t, o, r, u, rm⟩
    obtain rfl : st = StatRes.notExist := habs
    obtain rfl : c = true := hc
    obtain rfl : d = true := hd
    obtain rfl : t = true := ht
    obtain rfl : o = Except.ok largestsize := ho
    show Op.repack ∈ (processRepo g source remote _).2 ↔
      largestsize > packThreshold
    cases r <;> cases u <;>
      simp only [processRepo, hns, Bool.false_eq_true, if_false] <;>
      split_ifs with hl <;> simp_all
  · rcases env with ⟨st, c, d, t, o, r, u, rm⟩
    obtain rfl : st = StatRes.notExist := habs
    obtain rfl : c = true := hc
    obtain rfl : d = true := hd
    obtain rfl : t = true := ht
    obtain rfl : o = Except.ok largestsize := ho
    cases r <;> cases u <;>
      simp only [processRepo, hns, Bool.false_eq_true, if_false] <;>
      split_ifs with hl <;> simp_all
  · intro env' k hok
    rcases env' with ⟨st, c, d, t, o, r, u, rm⟩
    obtain rfl : st = StatRes.ok k := hok
    cases hd' : d <;> cases hu' : u <;>
      simp [processRepo, hns]

/-- Environment for a new mirror whose largest pack measures one byte
over the 95 MiB threshold, with every step succeeding. -/
def envNewBig : Env :=
  { statRes := .notExist, cloneOk := true, disablegcOk := true,
    touchOk := true, objectsRes := .ok (95 * 1024 * 1024 + 1),
    repackOk := true, updateOk := true, removeOk := true }

/-- Environment identical to envNewBig except the largest pack measures
exactly 95 MiB. -/
def envNewExact : Env :=
  { envNewBig with objectsRes := .ok (95 * 1024 * 1024) }

/-- Witness for repack_threshold_spec at both boundary values: a largest
pack of 95 MiB + 1 byte makes repack run before update, exactly 95 MiB
does not trigger repack, and a present mirror triggers neither the
inspection nor repack. -/
theorem repack_threshold_spec_witness :
    Op.repack ∈ (processRepo noGlob srcPlain
        "https://gitlab.example.com/a/b.git" envNewBig).2 ∧
      (processRepo noGlob srcPlain "https://gitlab.example.com/a/b.git"
          envNewBig).2.indexOf Op.repack <
        (processRepo noGlob srcPlain "https://gitlab.example.com/a/b.git"
          envNewBig).2.indexOf Op.update ∧
      Op.repack ∉ (processRepo noGlob srcPlain
        "https://gitlab.example.com/a/b.git" envNewExact).2 ∧
      Op.objects ∉ (processRepo noGlob srcPlain
        "https://gitlab.example.com/a/b.git" envPresent).2 ∧
      Op.repack ∉ (processRepo noGlob srcPlain
        "https://gitlab.example.com/a/b.git" envPresent).2 := by
  obtain ⟨h1, h2, h3⟩ := repack_threshold_spec noGlob srcPlain
    "https://gitlab.example.com/a/b.git" envNewBig (95 * 1024 * 1024 + 1)
    (by decide) rfl rfl rfl rfl rfl
  obtain ⟨h1', -, -⟩ := repack_threshold_spec noGlob srcPlain
    "https://gitlab.example.com/a/b.git" envNewExact (95 * 1024 * 1024)
    (by decide) rfl rfl rfl rfl rfl
  have hb := h1.mpr (by decide)
  obtain ⟨h5, h6⟩ := h3 envPresent true rfl
  exact ⟨hb, h2 hb (by decide),
    fun hmem => absurd (h1'.mp hmem) (by decide), h5, h6⟩

/-! ### Statistics aggregation theorems -/

/-- Recording an outcome adds exactly one to the sum of the six outcome
counters. -/
theorem record_outcomeSum (s : Stat) (o : Outcome) :
    (record s o).outcomeSum = s.outcomeSum + 1 := by
  cases o <;> simp [record, Stat.outcomeSum] <;> omega

/-- Recording an outcome never changes the Repos field. -/
theorem record_Repos (s : Stat) (o : Outcome) :
    (record s o).Repos = s.Repos := by
  cases o <;> rfl

/-- Recording an outcome never changes the Source field. -/
theorem record_Source (s : Stat) (o : Outcome) :
    (record s o).Source = s.Source := by
  cases o <;> rfl

/-- Processing a list of repos adds its length to the outcome-counter
sum of the threaded Stat. -/
theorem processRepos_outcomeSum (g : Glob) (source : Source)
    (repos : List (Repo × Env)) (s : Stat) :
    (processRepos g source repos s).outcomeSum =
      s.outcomeSum + repos.length := by
  induction repos generalizing s with
  | nil => simp [processRepos]
  | cons re rest ih =>
    rcases re with ⟨r, env⟩
    rw [processRepos, ih, record_outcomeSum]
    simp [Nat.add_assoc, Nat.add_comm 1]

/-- Processing a list of repos never changes the Repos field. -/
theorem processRepos_Repos (g : Glob) (source : Source)
    (repos : List (Repo × Env)) (s : Stat) :
    (processRepos g source repos s).Repos = s.Repos := by
  induction repos generalizing s with
  | nil => rfl
  | cons re rest ih =>
    rcases re with ⟨r, env⟩
    rw [processRepos, ih, record_Repos]

/-- Processing a list of repos never changes the Source field. -/
theorem processRepos_Source (g : Glob) (source : Source)
    (repos : List (Repo × Env)) (s : Stat) :
    (processRepos g source repos s).Source = s.Source := by
  induction repos generalizing s with
  | nil => rfl
  | cons re rest ih =>
    rcases re with ⟨r, env⟩
    rw [processRepos, ih, record_Source]

/-- C3: every processed repository increments exactly one of the six
outcome counters (recording any outcome adds exactly one to their sum),
so after a source's N listed repositories are processed the sum of
skipped, mirrored, updated, failed, failedMirror and failedUpdate in its
Stat equals N, which is also the recorded repo total. -/
theorem outcome_counters_sum (g : Glob) (source : Source)
    (repos : List (Repo × Env)) :
    (∀ s o, (record s o).outcomeSum = s.outcomeSum + 1) ∧
      (runSource g source (Except.ok repos)).outcomeSum = repos.length ∧
      (runSource g source (Except.ok repos)).Repos = repos.length := by
  refine ⟨record_outcomeSum, ?_, ?_⟩
  · rw [runSource, processRepos_outcomeSum]
    simp [initStat, Stat.outcomeSum]
  · rw [runSource, processRepos_Repos]

/-- C7: the batch emits exactly one report entry per configured source,
in configuration order (the stats list maps back to the configured
sources), and a source whose listing failed keeps its freshly initialized
Stat: all six outcome counters zero and no repositories counted. -/
theorem batch_report_per_source (g : Glob) (inputs : List SourceInput) :
    (runBatch g inputs).map Stat.Source =
        inputs.map SourceInput.source ∧
      ∀ inp ∈ inputs, inp.listing = Except.error () →
        runSource g inp.source inp.listing = initStat inp.source ∧
          (runSource g inp.source inp.listing).outcomeSum = 0 ∧
          (runSource g inp.source inp.listing).Repos = 0 := by
  constructor
  · rw [runBatch, List.map_map]
    refine List.map_congr_left ?_
    intro inp _
    show (runSource g inp.source inp.listing).Source = inp.source
    rcases h : inp.listing with e | repos
    · rfl
    · rw [runSource, processRepos_Source]
      rfl
  · intro inp _ herr
    rw [herr]
    exact ⟨rfl, rfl, rfl⟩

/-- Witness for batch_report_per_source: a one-source batch whose listing
fails still reports that source, with zero counters and zero repos. -/
theorem batch_report_per_source_witness :
    (runBatch noGlob [⟨srcPlain, Except.error ()⟩]).map Stat.Source =
        [srcPlain] ∧
      runSource noGlob srcPlain (Except.error ()) = initStat srcPlain ∧
      (runSource noGlob srcPlain (Except.error ())).outcomeSum = 0 ∧
      (runSource noGlob srcPlain (Except.error ())).Repos = 0 := by
  obtain ⟨h1, h2⟩ := batch_report_per_source noGlob
    [⟨srcPlain, Except.error ()⟩]
  obtain ⟨h3, h4, h5⟩ := h2 ⟨srcPlain, Except.error ()⟩ (by simp) rfl
  exact ⟨h1, h3, h4, h5⟩

/-! ### Pack-inspection theorems -/

mutual

/-- Walk of an error-free tree threads the running maximum of the .pack
sizes and the count of non-directory files through the closure state. -/
theorem walkTree_ok (t : FSTree) (h : errorFree t = true) (l c : Int) :
    walkTree t (l, c) =
      Except.ok ((packSizes t).foldl max l, c + (fileCount t : Int)) := by
  cases t with
  | file name size infoErr =>
    by_cases hp : name.endsWith ".pack"
    · have hi : infoErr = false := by
        simp [errorFree, hp] at h
        exact h
      simp only [walkTree, packSizes, fileCount, hp, hi, max_def, ge_iff_le,
        Bool.not_true, Bool.false_eq_true, if_false, Nat.cast_one]
      split_ifs with hls <;>
        simp [List.foldl_cons, List.foldl_nil, max_def, hls]
    · simp [walkTree, packSizes, fileCount, hp]
  | dir name readErr entries =>
    have hr : readErr = false := by
      simp [errorFree, Bool.and_eq_true] at h
      exact h.1
    have he : errorFreeList entries = true := by
      simp [errorFree, Bool.and_eq_true] at h
      exact h.2
    rw [walkTree]
    simp only [hr, Bool.false_eq_true, if_false]
    rw [walkTrees_ok entries he l c]
    simp [packSizes, fileCount]

/-- Walk of an error-free list of entries, in order. -/
theorem walkTrees_ok (ts : List FSTree) (h : errorFreeList ts = true)
    (l c : Int) :
    walkTrees ts (l, c) =
      Except.ok ((packSizesList ts).foldl max l,
        c + (fileCountList ts : Int)) := by
  cases ts with
  | nil => simp [walkTrees, packSizesList, fileCountList]
  | cons t ts' =>
    have h1 : errorFree t = true := by
      simp [errorFreeList, Bool.and_eq_true] at h
      exact h.1
    have h2 : errorFreeList ts' = true := by
      simp [errorFreeList, Bool.and_eq_true] at h
      exact h.2
    rw [walkTrees, walkTree_ok t h1 l c]
    show walkTrees ts'
        (List.foldl max l (packSizes t), c + (fileCount t : Int)) = _
    rw [walkTrees_ok ts' h2]
    simp [packSizesList, fileCountList, List.foldl_append]
    omega

end

mutual

/-- Walk of a tree containing a traversal error aborts with the error. -/
theorem walkTree_err (t : FSTree) (h : errorFree t = false) (l c : Int) :
    walkTree t (l, c) = Except.error () := by
  cases t with
  | file name size infoErr =>
    have hp : name.endsWith ".pack" = true ∧ infoErr = true := by
      simpa [errorFree] using h
    simp [walkTree, hp.1, hp.2]
  | dir name readErr entries =>
    cases hr : readErr with
    | true => simp [walkTree, hr]
    | false =>
      have he : errorFreeList entries = false := by
        simpa [errorFree, hr] using h
      rw [walkTree]
      simp only [Bool.false_eq_true, if_false]
      exact walkTrees_err entries he l c

/-- Walk of a list of entries one of which holds a traversal error. -/
theorem walkTrees_err (ts : List FSTree) (h : errorFreeList ts = false)
    (l c : Int) :
    walkTrees ts (l, c) = Except.error () := by
  cases ts with
  | nil => simp [errorFreeList] at h
  | cons t ts' =>
    by_cases h1 : errorFree t
    · rw [walkTrees, walkTree_ok t h1 l c]
      show walkTrees ts'
          (List.foldl max l (packSizes t), c + (fileCount t : Int)) = _
      exact walkTrees_err ts' (by simpa [errorFreeList, h1] using h) _ _
    · rw [walkTrees,
        walkTree_err t (Bool.not_eq_true _ ▸ h1 : errorFree t = false) l c]

end

/-- Initial accumulator is a lower bound of a max fold. -/
theorem foldl_max_init_le (xs : List Int) (a : Int) :
    a ≤ xs.foldl max a := by
  induction xs generalizing a with
  | nil => simp
  | cons y ys ih =>
    rw [List.foldl_cons]
    exact le_trans (le_max_left a y) (ih (max a y))

/-- Every list element is bounded by a max fold over the list. -/
theorem le_foldl_max (xs : List Int) (a : Int) :
    ∀ x ∈ xs, x ≤ xs.foldl max a := by
  induction xs generalizing a with
  | nil => simp
  | cons y ys ih =>
    intro x hx
    rw [List.foldl_cons]
    rcases List.mem_cons.mp hx with rfl | hx
    · exact le_trans (le_max_right a x) (foldl_max_init_le ys (max a x))
    · exact ih (max a y) x hx

/-- A max fold yields the initial accumulator or a list element. -/
theorem foldl_max_mem (xs : List Int) (a : Int) :
    xs.foldl max a = a ∨ xs.foldl max a ∈ xs := by
  induction xs generalizing a with
  | nil => exact Or.inl rfl
  | cons y ys ih =>
    rw [List.foldl_cons]
    rcases ih (max a y) with h | h
    · rcases max_cases a y with ⟨hm, _⟩ | ⟨hm, _⟩
      · exact Or.inl (by rw [h, hm])
      · exact Or.inr (by rw [h, hm]; exact List.mem_cons_self y ys)
    · exact Or.inr (List.mem_cons_of_mem y h)

/-- Inspection of an error-free objects tree returns the max fold of the
.pack sizes (from 0) and the file count. -/
theorem objects_ok (t : FSTree) (h : errorFree t = true) :
    objects t =
      Except.ok ((packSizes t).foldl max 0, (fileCount t : Int)) := by
  rw [objects, walkTree_ok t h 0 0]
  simp

/-- Inspection of a tree with a traversal error returns the error. -/
theorem objects_err (t : FSTree) (h : errorFree t = false) :
    objects t = Except.error () :=
  walkTree_err t h 0 0

/-- Environment for a new mirror whose pack inspection fails after clone,
disableAutoGC and mark succeeded. -/
def envObjErr : Env :=
  { statRes := .notExist, cloneOk := true, disablegcOk := true,
    touchOk := true, objectsRes := .error (), repackOk := true,
    updateOk := true, removeOk := true }

/-- C8 counterexample: an objects traversal error during the new-mirror
sequence makes main count the repository as FailedMirror, not as the
generic Failed the claim asserts. -/
theorem objects_error_not_generic_failed :
    (processRepo noGlob srcPlain "https://gitlab.example.com/a/b.git"
        envObjErr).1 = Outcome.failedMirror ∧
      ¬ (processRepo noGlob srcPlain "https://gitlab.example.com/a/b.git"
        envObjErr).1 = Outcome.failed := by
  decide

/-- C8 amended: for a present mirror the pack inspection walks the
objects subtree and returns a count equal to the number of non-directory
files and a largest size equal to the maximum size among files whose name
ends in .pack (0 when there are none, directories contributing to neither
value), and any traversal error aborts the inspection with an error; in
the engine an inspection error during the new-mirror sequence counts the
repository as FailedMirror — incremented by exactly one, with remove
invoked to roll back the partial mirror — not as the generic Failed. -/
theorem objects_inspection_spec (t : FSTree) (g : Glob) (source : Source)
    (remote : String) (env : Env)
    (hnn : ∀ x ∈ packSizes t, 0 ≤ x) :
    (errorFree t = true →
      ∃ L : Int, objects t = Except.ok (L, (fileCount t : Int)) ∧
        (∀ x ∈ packSizes t, x ≤ L) ∧
        (packSizes t = [] → L = 0) ∧
        (packSizes t ≠ [] → L ∈ packSizes t)) ∧
      (errorFree t = false → objects t = Except.error ()) ∧
      (skip g source remote = false → env.statRes = .notExist →
        env.cloneOk = true → env.disablegcOk = true →
        env.touchOk = true → env.objectsRes = Except.error () →
        (processRepo g source remote env).1 = .failedMirror ∧
          (processRepo g source remote env).2 =
            [Op.clone, Op.disablegc, Op.touch, Op.objects, Op.remove] ∧
          ∀ s, record s (processRepo g source remote env).1 =
            { s with FailedMirror := s.FailedMirror + 1 }) := by
  refine ⟨?_, objects_err t, ?_⟩
  · intro he
    refine ⟨(packSizes t).foldl max 0, objects_ok t he,
      le_foldl_max _ 0, ?_, ?_⟩
    · intro hnil
      rw [hnil]
      rfl
    · intro hne
      rcases foldl_max_mem (packSizes t) 0 with h0 | hm
      · rcases List.exists_mem_of_ne_nil _ hne with ⟨x, hx⟩
        have hle := le_foldl_max (packSizes t) 0 x hx
        have hx0 : x = (packSizes t).foldl max 0 :=
          le_antisymm hle (by rw [h0]; exact hnn x hx)
        rw [← hx0]
        exact hx
      · exact hm
  · intro hns habs hc hd ht ho
    rcases env with ⟨st, c, d, t', o, r, u, rm⟩
    obtain rfl : st = StatRes.notExist := habs
    obtain rfl : c = true := hc
    obtain rfl : d = true := hd
    obtain rfl : t' = true := ht
    obtain rfl : o = Except.error () := ho
    simp [processRepo, hns, record]

/-- Objects subtree for the witness: the pack directory exists but holds
no files yet, so there are no files and no .pack sizes. -/
def treeEmpty : FSTree := .dir "objects" false [.dir "pack" false []]

/-- Witness for objects_inspection_spec on a concrete tree and a concrete
failing environment. -/
theorem objects_inspection_spec_witness :
    (∃ L : Int, objects treeEmpty =
        Except.ok (L, (fileCount treeEmpty : Int)) ∧
        (∀ x ∈ packSizes treeEmpty, x ≤ L) ∧
        (packSizes treeEmpty = [] → L = 0) ∧
        (packSizes treeEmpty ≠ [] → L ∈ packSizes treeEmpty)) ∧
      (processRepo noGlob srcPlain "https://gitlab.example.com/a/b.git"
          envObjErr).1 = .failedMirror ∧
      (processRepo noGlob srcPlain "https://gitlab.example.com/a/b.git"
          envObjErr).2 =
        [Op.clone, Op.disablegc, Op.touch, Op.objects, Op.remove] ∧
      ∀ s, record s (processRepo noGlob srcPlain
          "https://gitlab.example.com/a/b.git" envObjErr).1 =
        { s with FailedMirror := s.FailedMirror + 1 } := by
  obtain ⟨h1, h2, h3⟩ := objects_inspection_spec treeEmpty noGlob srcPlain
    "https://gitlab.example.com/a/b.git" envObjErr
    (by simp [treeEmpty, packSizes, packSizesList])
  obtain ⟨h4, h5, h6⟩ := h3 (by decide) rfl rfl rfl rfl rfl
  exact ⟨h1 (by simp [treeEmpty, errorFree, errorFreeList]), h4, h5, h6⟩

end GitlabRepoMirror
